import Mathlib

/-!
Verification of the facet-actix request extractors and responder.

The development shallowly embeds `src/json.rs` and `src/form.rs`:

* header values and bodies are byte lists (`List UInt8`);
* the two extraction futures (`JsonExtractFut`, `FormExtractFut`) become
  explicit state records, and their `poll` methods become pure step
  functions that take the outcome the body-reader future would report
  when polled (`BytesPoll`) and return the successor state together with
  the poll output and bookkeeping flags (whether the content-type guard
  ran on this poll and whether the body future was polled);
* a Rust panic (the `unwrap` calls in `form.rs`) is modelled as `none`
  in an `Option`-wrapped result;
* the external codecs are parameters of the step functions, except where
  a claim is about the codec itself, where a representative instance is
  modelled from the spec.
-/

namespace FacetActix

/-- UTF-8 bytes of an ASCII string literal. -/
def strBytes (s : String) : List UInt8 :=
  s.data.map (fun c => UInt8.ofNat c.toNat)

/-- Byte content of `mime::APPLICATION_JSON.as_ref()`, compared against the
header value in `json.rs`. -/
def APPLICATION_JSON_BYTES : List UInt8 := strBytes "application/json"

/-- Byte content of `mime::APPLICATION_WWW_FORM_URLENCODED.as_ref()`. -/
def FORM_URLENCODED_BYTES : List UInt8 := strBytes "application/x-www-form-urlencoded"

/-- Byte content of `mime::MULTIPART_FORM_DATA.as_ref()`. -/
def MULTIPART_BYTES : List UInt8 := strBytes "multipart/form-data"

/-- Visible-ASCII test used by the http crate's `HeaderValue::to_str`:
a byte converts iff it is in `32..=126` or is a horizontal tab. -/
def isVisibleAscii (b : UInt8) : Bool :=
  (32 ≤ b.toNat && b.toNat < 127) || b.toNat == 9

/-- Model of `HeaderValue::to_str`: succeeds (returning the same bytes,
which are then ASCII text) iff every byte is visible ASCII. -/
def headerToStr (v : List UInt8) : Option (List UInt8) :=
  if v.all isVisibleAscii then some v else none

/-- Bytes admissible in a `HeaderValue` at construction time (the http
crate rejects control bytes other than tab, and DEL). -/
def validHeaderBytes (v : List UInt8) : Bool :=
  v.all (fun b => (32 ≤ b.toNat && b.toNat ≠ 127) || b.toNat == 9)

/-- Model of an `actix_web::HttpRequest` as far as the extractors look at
it: `headers().get(CONTENT_TYPE)`, an optional header value. -/
structure HttpRequest where
  contentType : Option (List UInt8)
deriving DecidableEq

/-- Opaque model of `actix_web::Error` (the body-transport error). -/
structure ActixError where
  msg : String
deriving DecidableEq

/-- Opaque model of `facet_json::DeserializeError` (structured codec error). -/
structure DeserializeError where
  msg : String
deriving DecidableEq

/-- Opaque model of `facet_urlencoded::UrlEncodedError`. -/
structure UrlEncodedError where
  msg : String
deriving DecidableEq

/-- The `Json<T>` wrapper of `json.rs`: a transparent single-field
container around the decoded value. -/
structure Json (T : Type) where
  val : T
deriving DecidableEq

/-- Model of `Json::into_inner`: unwrap into the inner value. -/
def Json.into_inner {T : Type} (j : Json T) : T := j.val

/-- The `Form<T>` wrapper of `form.rs`. -/
structure Form (T : Type) where
  val : T
deriving DecidableEq

/-- Model of `Form::into_inner`. -/
def Form.into_inner {T : Type} (f : Form T) : T := f.val

/-- The `JsonRejection` enum of `json.rs`. -/
inductive JsonRejection
  | Body (err : ActixError)
  | Deserialize (err : DeserializeError)
  | MissingContentType
  | InvalidContentType
deriving DecidableEq

/-- The `FormRejection` enum of `form.rs`. -/
inductive FormRejection
  | Body (err : ActixError)
  | Deserialize (err : UrlEncodedError)
  | MissingContentType
  | InvalidContentType
deriving DecidableEq

/-- HTTP status codes as naturals. -/
abbrev StatusCode := Nat

/-- Status mapping of `impl ResponseError for JsonRejection` (json.rs). -/
def JsonRejection.status_code : JsonRejection → StatusCode
  | .Body _ => 400
  | .Deserialize _ => 422
  | .MissingContentType | .InvalidContentType => 415

/-- Status mapping of `impl ResponseError for FormRejection` (form.rs). -/
def FormRejection.status_code : FormRejection → StatusCode
  | .Body _ => 400
  | .Deserialize _ => 422
  | .MissingContentType | .InvalidContentType => 415

/-- Case-preserving translation between the two rejection enums, used to
state that the two status mappings are identical case by case.  The
payload of the codec case is carried across by its message. -/
def jsonToFormCase : JsonRejection → FormRejection
  | .Body e => .Body e
  | .Deserialize d => .Deserialize ⟨d.msg⟩
  | .MissingContentType => .MissingContentType
  | .InvalidContentType => .InvalidContentType

instance {ε α : Type} [DecidableEq ε] [DecidableEq α] : DecidableEq (Except ε α) := fun a b =>
  match a, b with
  | .error e, .error f => decidable_of_iff (e = f) (by simp)
  | .ok a, .ok b => decidable_of_iff (a = b) (by simp)
  | .error _, .ok _ => isFalse (by simp)
  | .ok _, .error _ => isFalse (by simp)

/-- Outcome the body-reader future (`<Bytes as FromRequest>::Future`)
reports when polled. -/
inductive BytesPoll
  | pending
  | ready (r : Except ActixError (List UInt8))
deriving DecidableEq

/-- Result of polling a future once. -/
inductive Poll (α : Type)
  | pending
  | ready (value : α)
deriving DecidableEq

/-- State of `JsonExtractFut` (json.rs): the not-yet-consumed request
handle; the inner bytes future is modelled by the `BytesPoll` oracle
passed to each poll, and the phantom marker has no runtime content. -/
structure JsonExtractFut where
  req : Option HttpRequest
deriving DecidableEq

/-- State of `FormExtractFut` (form.rs). -/
structure FormExtractFut where
  req : Option HttpRequest
deriving DecidableEq

/-- Content-type check performed on the first poll in `json.rs`:
`some r` means the poll returns `Err(r)` at once, `none` means the guard
accepts.  A present header is rejected unless it is byte-for-byte equal
to `application/json`; an absent header is `MissingContentType`. -/
def jsonGuard : Option (List UInt8) → Option JsonRejection
  | some ct => if ct ≠ APPLICATION_JSON_BYTES then some .InvalidContentType else none
  | none => some .MissingContentType

/-- Content-type check performed on the first poll in `form.rs`.  The
outer `Option` models the `to_str().unwrap()` calls: `none` is a panic,
which happens exactly when the present header value is not visible
ASCII.  Otherwise `some (some r)` rejects and `some none` accepts; a
present textual value is accepted iff it starts with
`application/x-www-form-urlencoded` or with `multipart/form-data`. -/
def formGuard : Option (List UInt8) → Option (Option FormRejection)
  | none => some (some .MissingContentType)
  | some ct =>
    match headerToStr ct with
    | none => none
    | some s =>
      if !(List.isPrefixOf FORM_URLENCODED_BYTES s) && !(List.isPrefixOf MULTIPART_BYTES s) then
        some (some .InvalidContentType)
      else
        some none

/-- Result of one call to `JsonExtractFut::poll`: the request-handle slot
after the poll, whether the guard match ran, whether the inner bytes
future was polled, and the poll output. -/
structure JsonPollResult (T : Type) where
  req : Option HttpRequest
  guardRan : Bool
  bodyPolled : Bool
  output : Poll (Except JsonRejection (Json T))
deriving DecidableEq

/-- Result of one call to `FormExtractFut::poll` (when it does not panic). -/
structure FormPollResult (T : Type) where
  req : Option HttpRequest
  guardRan : Bool
  bodyPolled : Bool
  output : Poll (Except FormRejection (Form T))
deriving DecidableEq

/-- Tail of `JsonExtractFut::poll` after the guard: poll the bytes
future and, on ready bytes, run `facet_json::from_slice` (the `decode`
parameter). -/
def jsonPollBody {T : Type} (decode : List UInt8 → Except DeserializeError T)
    (body : BytesPoll) : Poll (Except JsonRejection (Json T)) :=
  match body with
  | .pending => .pending
  | .ready (.error e) => .ready (.error (.Body e))
  | .ready (.ok data) =>
    match decode data with
    | .ok v => .ready (.ok ⟨v⟩)
    | .error e => .ready (.error (.Deserialize e))

/-- One call to `JsonExtractFut::poll` (json.rs, lines 124-150).  The
`req.take()` empties the slot on the first poll; a guard rejection
returns ready before the bytes future is polled. -/
def jsonPoll {T : Type} (decode : List UInt8 → Except DeserializeError T)
    (st : JsonExtractFut) (body : BytesPoll) : JsonPollResult T :=
  match st.req with
  | none =>
    { req := none, guardRan := false, bodyPolled := true, output := jsonPollBody decode body }
  | some r =>
    match jsonGuard r.contentType with
    | some rej =>
      { req := none, guardRan := true, bodyPolled := false, output := .ready (.error rej) }
    | none =>
      { req := none, guardRan := true, bodyPolled := true, output := jsonPollBody decode body }

/-- UTF-8 validity of a byte list, as checked by Rust's
`str::from_utf8`: continuation bytes are `0x80..=0xBF`, two-byte heads
`0xC2..=0xDF`, three- and four-byte heads carry the usual restrictions
on the first continuation byte (no overlongs, no surrogates, max
`U+10FFFF`). -/
def contByte (b : UInt8) : Bool := 0x80 ≤ b.toNat && b.toNat ≤ 0xBF

/-- First-continuation restriction for a three-byte head. -/
def okCont3 (head : Nat) (c1 : UInt8) : Bool :=
  if head == 0xE0 then 0xA0 ≤ c1.toNat && c1.toNat ≤ 0xBF
  else if head == 0xED then 0x80 ≤ c1.toNat && c1.toNat ≤ 0x9F
  else contByte c1

/-- First-continuation restriction for a four-byte head. -/
def okCont4 (head : Nat) (c1 : UInt8) : Bool :=
  if head == 0xF0 then 0x90 ≤ c1.toNat && c1.toNat ≤ 0xBF
  else if head == 0xF4 then 0x80 ≤ c1.toNat && c1.toNat ≤ 0x8F
  else contByte c1

/-- Decide whether a byte list is well-formed UTF-8. -/
def validUtf8 : List UInt8 → Bool
  | [] => true
  | b :: t =>
    if b.toNat ≤ 0x7F then validUtf8 t
    else if 0xC2 ≤ b.toNat && b.toNat ≤ 0xDF then
      match t with
      | c1 :: t1 => contByte c1 && validUtf8 t1
      | [] => false
    else if 0xE0 ≤ b.toNat && b.toNat ≤ 0xEF then
      match t with
      | c1 :: c2 :: t2 => okCont3 b.toNat c1 && contByte c2 && validUtf8 t2
      | _ => false
    else if 0xF0 ≤ b.toNat && b.toNat ≤ 0xF4 then
      match t with
      | c1 :: c2 :: c3 :: t3 =>
        okCont4 b.toNat c1 && contByte c2 && contByte c3 && validUtf8 t3
      | _ => false
    else false

/-- Output of the body phase of `FormExtractFut::poll`: poll the bytes
future; ready bytes pass through `str::from_utf8(..).unwrap()` — a panic
(`none`) on invalid UTF-8 — and then `facet_urlencoded::from_str_owned`
(the `decode` parameter). -/
def formBodyOutput {T : Type} (decode : List UInt8 → Except UrlEncodedError T)
    (body : BytesPoll) : Option (Poll (Except FormRejection (Form T))) :=
  match body with
  | .pending => some .pending
  | .ready (.error e) => some (.ready (.error (.Body e)))
  | .ready (.ok data) =>
    if validUtf8 data then
      some (match decode data with
            | .ok v => .ready (.ok ⟨v⟩)
            | .error e => .ready (.error (.Deserialize e)))
    else
      none

/-- Tail of `FormExtractFut::poll` after the guard, as a poll result. -/
def formPollBody {T : Type} (decode : List UInt8 → Except UrlEncodedError T)
    (body : BytesPoll) : Option (FormPollResult T) :=
  (formBodyOutput decode body).map
    (fun out => { req := none, guardRan := false, bodyPolled := true, output := out })

/-- One call to `FormExtractFut::poll` (form.rs, lines 121-160), `none`
modelling a panic. -/
def formPoll {T : Type} (decode : List UInt8 → Except UrlEncodedError T)
    (st : FormExtractFut) (body : BytesPoll) : Option (FormPollResult T) :=
  match st.req with
  | none => formPollBody decode body
  | some r =>
    match formGuard r.contentType with
    | none => none
    | some (some rej) =>
      some { req := none, guardRan := true, bodyPolled := false,
             output := .ready (.error rej) }
    | some none =>
      (formPollBody decode body).map (fun res => { res with guardRan := true })

/-- Opaque model of `facet_format::SerializeError<JsonSerializeError>`
(the structured encode error), rendered by its display text. -/
structure SerializeError where
  msg : String
deriving DecidableEq

/-- The `SerializeErrorToActixError` wrapper of json.rs (lines 173-186):
wraps the encode error so it can be rendered as an actix error
response. -/
structure SerializeErrorToActixError where
  err : SerializeError
deriving DecidableEq

/-- Status mapping of `impl ResponseError for SerializeErrorToActixError`
(json.rs lines 182-186). -/
def SerializeErrorToActixError.status_code (_ : SerializeErrorToActixError) : StatusCode := 500

/-- Display of `SerializeErrorToActixError` delegates to the wrapped
encode error (json.rs lines 176-180). -/
def SerializeErrorToActixError.display (e : SerializeErrorToActixError) : String := e.err.msg

/-- Model of the header-framing error (`actix_web`'s `HttpError`) that
`HttpResponseBuilder::message_body` can surface; its `ResponseError`
rendering uses the default 500 status, per the actix contract. -/
structure HttpError where
  msg : String
deriving DecidableEq

/-- Status used when a framing error is rendered through
`HttpResponse::from_error`. -/
def HttpError.status_code (_ : HttpError) : StatusCode := 500

/-- Model of an `HttpResponse` as far as the responder shapes it:
status, optional Content-Type header, body bytes. -/
structure HttpResponseM where
  status : StatusCode
  contentType : Option (List UInt8)
  body : List UInt8
deriving DecidableEq

/-- Model of `HttpResponse::from_error`: a response carrying the error's
status code and rendering its display text as the body. -/
def fromError (status : StatusCode) (msg : String) : HttpResponseM :=
  { status := status, contentType := none, body := strBytes msg }

/-- Model of `impl Responder for Json<T>::respond_to` (json.rs lines
153-171).  `encode` stands for `facet_json::to_string`, producing the
UTF-8 bytes of the encoded text; `builderErr` says whether the response
builder's header framing failed (external machinery — always `none` in
the reachable instantiation, since the content type set is a constant
valid mime). -/
def Json.respond_to {T : Type} (encode : T → Except SerializeError (List UInt8))
    (builderErr : Option HttpError) (j : Json T) : HttpResponseM :=
  match encode j.val with
  | .ok body =>
    match builderErr with
    | none => { status := 200, contentType := some APPLICATION_JSON_BYTES, body := body }
    | some e => fromError e.status_code e.msg
  | .error e => fromError (SerializeErrorToActixError.mk e).status_code
      (SerializeErrorToActixError.mk e).display

/-- ASCII byte of a single decimal digit. -/
def digitByte (d : Nat) : UInt8 := UInt8.ofNat (48 + d)

/-- Numeric value of an ASCII digit byte. -/
def byteDigit (b : UInt8) : Nat := b.toNat - 48

/-- Decide whether a byte is an ASCII decimal digit. -/
def isDigitByte (b : UInt8) : Bool := 48 ≤ b.toNat && b.toNat ≤ 57

/-- Little-endian decimal digits of a natural number, with explicit
structural fuel (`digitsFuel n n` is exact for `n`). -/
def digitsFuel : Nat → Nat → List Nat
  | 0, _ => []
  | _ + 1, 0 => []
  | fuel + 1, n + 1 => ((n + 1) % 10) :: digitsFuel fuel ((n + 1) / 10)

/-- Value of a little-endian decimal digit list. -/
def ofDigits10 : List Nat → Nat
  | [] => 0
  | d :: ds => d + 10 * ofDigits10 ds

/-- ASCII bytes of the decimal rendering of a natural number. -/
def natBytes (n : Nat) : List UInt8 :=
  if n = 0 then [48] else ((digitsFuel n n).map digitByte).reverse

/-- Consume a leading non-empty run of decimal digits, returning its
value and the remaining bytes. -/
def parseNatBytes (s : List UInt8) : Option (Nat × List UInt8) :=
  if (s.takeWhile isDigitByte).isEmpty then none
  else some (ofDigits10 (((s.takeWhile isDigitByte).map byteDigit).reverse),
             s.drop (s.takeWhile isDigitByte).length)

/-- Consume an expected literal byte sequence. -/
def expectBytes (pat s : List UInt8) : Option (List UInt8) :=
  if List.isPrefixOf pat s then some (s.drop pat.length) else none

/-- Modelled from the spec: the reflection-driven JSON codec
(`facet_json::to_string` / `facet_json::from_slice`) is an external
collaborator whose source is not part of this repository; the spec only
gives its contract (bytes to typed value or structured error, text from
a value).  `RangeQ` is the spec's representative supported record shape
(scenarios 1 and 4: a record with `min` and `max` number fields). -/
structure RangeQ where
  min : Nat
  max : Nat
deriving DecidableEq

/-- Head of the canonical JSON object text of a `RangeQ`. -/
def JSON_OBJ_HEAD : List UInt8 := strBytes "\x7b\"min\":"

/-- Separator between the two fields of the object text. -/
def JSON_OBJ_MID : List UInt8 := strBytes ",\"max\":"

/-- Closing brace of the object text. -/
def JSON_OBJ_TAIL : List UInt8 := strBytes "\x7d"

/-- Modelled from the spec: the codec's `encode` at the `RangeQ` shape —
the UTF-8 text of the canonical JSON object with the two number
fields. -/
def encodeRange (r : RangeQ) : List UInt8 :=
  JSON_OBJ_HEAD ++ natBytes r.min ++ JSON_OBJ_MID ++ natBytes r.max ++ JSON_OBJ_TAIL

/-- Modelled from the spec: the codec's `decode` at the `RangeQ` shape —
parses exactly the grammar `encodeRange` produces and returns a
structured error otherwise. -/
def decodeRange (s : List UInt8) : Except DeserializeError RangeQ :=
  match expectBytes JSON_OBJ_HEAD s with
  | none => .error ⟨"expected object head"⟩
  | some s1 =>
    match parseNatBytes s1 with
    | none => .error ⟨"expected a number"⟩
    | some (m, s2) =>
      match expectBytes JSON_OBJ_MID s2 with
      | none => .error ⟨"expected the max field"⟩
      | some s3 =>
        match parseNatBytes s3 with
        | none => .error ⟨"expected a number"⟩
        | some (x, s4) =>
          match expectBytes JSON_OBJ_TAIL s4 with
          | none => .error ⟨"expected the object end"⟩
          | some s5 =>
            if s5.isEmpty then .ok ⟨m, x⟩ else .error ⟨"trailing bytes"⟩

/-- Number of times the content-type guard match runs when a
`JsonExtractFut` in state `st` is polled through the given sequence of
body-reader outcomes, threading the request-slot state between polls. -/
def jsonGuardRuns {T : Type} (decode : List UInt8 → Except DeserializeError T)
    (st : JsonExtractFut) : List BytesPoll → Nat
  | [] => 0
  | bp :: rest =>
    let r := jsonPoll decode st bp
    (if r.guardRan then 1 else 0) + jsonGuardRuns decode ⟨r.req⟩ rest

/-- Number of times the content-type guard match runs for a
`FormExtractFut`.  A panicking poll is the last event of the run: it is
counted as one guard entry when the slot was still full (the `unwrap`
panic happens inside or after the guard) and is followed by nothing. -/
def formGuardRuns {T : Type} (decode : List UInt8 → Except UrlEncodedError T)
    (st : FormExtractFut) : List BytesPoll → Nat
  | [] => 0
  | bp :: rest =>
    match formPoll decode st bp with
    | none => if st.req.isSome then 1 else 0
    | some r => (if r.guardRan then 1 else 0) + formGuardRuns decode ⟨r.req⟩ rest

/-- C1: for every Rejection value of either format, the status-code
mapping is total and fixed: body-read failure maps to 400, decode
failure to 422, and the two content-type cases to 415; the JSON and Form
mappings agree case by case and no case is unmapped (the mapping is a
total function on each four-case enum). -/
theorem C1_status_mapping :
    (∀ e, (JsonRejection.Body e).status_code = 400)
    ∧ (∀ d, (JsonRejection.Deserialize d).status_code = 422)
    ∧ JsonRejection.MissingContentType.status_code = 415
    ∧ JsonRejection.InvalidContentType.status_code = 415
    ∧ (∀ e, (FormRejection.Body e).status_code = 400)
    ∧ (∀ d, (FormRejection.Deserialize d).status_code = 422)
    ∧ FormRejection.MissingContentType.status_code = 415
    ∧ FormRejection.InvalidContentType.status_code = 415
    ∧ (∀ r, (jsonToFormCase r).status_code = r.status_code) := by
  refine ⟨fun _ => rfl, fun _ => rfl, rfl, rfl, fun _ => rfl, fun _ => rfl, rfl, rfl, fun r => ?_⟩
  cases r <;> rfl

/-- C2: a request with no Content-Type header makes both extractors
terminate with `MissingContentType` (status 415) on their first poll,
for every body outcome, without polling the body future and without
suspending. -/
theorem C2_missing_content_type {T : Type}
    (jdecode : List UInt8 → Except DeserializeError T)
    (fdecode : List UInt8 → Except UrlEncodedError T)
    (req : HttpRequest) (body : BytesPoll) (h : req.contentType = none) :
    jsonPoll jdecode ⟨some req⟩ body =
      { req := none, guardRan := true, bodyPolled := false,
        output := .ready (.error .MissingContentType) }
    ∧ formPoll fdecode ⟨some req⟩ body =
      some { req := none, guardRan := true, bodyPolled := false,
             output := .ready (.error .MissingContentType) }
    ∧ JsonRejection.MissingContentType.status_code = 415
    ∧ FormRejection.MissingContentType.status_code = 415 := by
  rcases req with ⟨ct⟩
  cases h
  exact ⟨rfl, rfl, rfl, rfl⟩

theorem C2_missing_content_type_witness :
    jsonPoll (T := Nat) (fun _ => .error ⟨""⟩) ⟨some ⟨none⟩⟩ .pending =
      { req := none, guardRan := true, bodyPolled := false,
        output := .ready (.error .MissingContentType) }
    ∧ formPoll (T := Nat) (fun _ => .error ⟨""⟩) ⟨some ⟨none⟩⟩ .pending =
      some { req := none, guardRan := true, bodyPolled := false,
             output := .ready (.error .MissingContentType) }
    ∧ JsonRejection.MissingContentType.status_code = 415
    ∧ FormRejection.MissingContentType.status_code = 415 :=
  C2_missing_content_type _ _ ⟨none⟩ .pending rfl

/-- C3: a present Content-Type that is not byte-for-byte equal to
`application/json` makes the JSON extractor terminate with
`InvalidContentType` (status 415) on the first poll, whatever the body
and the decoder would have produced; exact equality is accepted. -/
theorem C3_json_invalid_content_type {T : Type}
    (jdecode : List UInt8 → Except DeserializeError T)
    (ct : List UInt8) (body : BytesPoll) (h : ct ≠ APPLICATION_JSON_BYTES) :
    jsonPoll jdecode ⟨some ⟨some ct⟩⟩ body =
      { req := none, guardRan := true, bodyPolled := false,
        output := .ready (.error .InvalidContentType) }
    ∧ jsonGuard (some APPLICATION_JSON_BYTES) = none
    ∧ JsonRejection.InvalidContentType.status_code = 415 := by
  refine ⟨?_, by simp [jsonGuard], rfl⟩
  simp [jsonPoll, jsonGuard, h]

theorem C3_json_invalid_content_type_witness :
    jsonPoll (T := Nat) (fun _ => .ok 0)
        ⟨some ⟨some (strBytes "application/json; charset=utf-8")⟩⟩
        (.ready (.ok (strBytes "0"))) =
      { req := none, guardRan := true, bodyPolled := false,
        output := .ready (.error .InvalidContentType) }
    ∧ jsonGuard (some APPLICATION_JSON_BYTES) = none
    ∧ JsonRejection.InvalidContentType.status_code = 415 :=
  C3_json_invalid_content_type _ _ _ (by decide)

/-- C4 counterexample: the header value consisting of the single byte
255 starts with neither accepted prefix string, yet the Form guard does
not return `InvalidContentType` for it (it panics instead), so the
claimed equivalence fails as stated. -/
theorem C4_counterexample :
    ¬ List.isPrefixOf FORM_URLENCODED_BYTES [(255 : UInt8)]
    ∧ ¬ List.isPrefixOf MULTIPART_BYTES [(255 : UInt8)]
    ∧ formGuard (some [(255 : UInt8)]) ≠ some (some FormRejection.InvalidContentType) := by
  decide

/-- C4 amended: for every present Content-Type value all of whose bytes
are visible ASCII, the Form guard accepts iff the value starts with
`application/x-www-form-urlencoded` or with `multipart/form-data`, and
returns `InvalidContentType` iff it starts with neither; a present value
with a non-visible-ASCII byte makes the guard panic instead of returning
a verdict. -/
theorem C4_form_guard_accepts_iff (v : List UInt8) (h : v.all isVisibleAscii = true) :
    (formGuard (some v) = some none ↔
      (List.isPrefixOf FORM_URLENCODED_BYTES v ∨ List.isPrefixOf MULTIPART_BYTES v))
    ∧ (formGuard (some v) = some (some FormRejection.InvalidContentType) ↔
      (¬ List.isPrefixOf FORM_URLENCODED_BYTES v ∧ ¬ List.isPrefixOf MULTIPART_BYTES v)) := by
  have hs : headerToStr v = some v := by simp [headerToStr, h]
  simp only [formGuard, hs]
  by_cases hA : List.isPrefixOf FORM_URLENCODED_BYTES v <;>
    by_cases hB : List.isPrefixOf MULTIPART_BYTES v <;>
      simp [hA, hB]

theorem C4_form_guard_accepts_iff_witness :
    (formGuard (some (strBytes "multipart/form-data; boundary=x")) = some none ↔
      (List.isPrefixOf FORM_URLENCODED_BYTES (strBytes "multipart/form-data; boundary=x")
        ∨ List.isPrefixOf MULTIPART_BYTES (strBytes "multipart/form-data; boundary=x")))
    ∧ (formGuard (some (strBytes "multipart/form-data; boundary=x")) =
        some (some FormRejection.InvalidContentType) ↔
      (¬ List.isPrefixOf FORM_URLENCODED_BYTES (strBytes "multipart/form-data; boundary=x")
        ∧ ¬ List.isPrefixOf MULTIPART_BYTES (strBytes "multipart/form-data; boundary=x"))) :=
  C4_form_guard_accepts_iff _ (by decide)

theorem formPollBody_fresh {T : Type} (fdecode : List UInt8 → Except UrlEncodedError T)
    (bp : BytesPoll) (r : FormPollResult T) (h : formPollBody fdecode bp = some r) :
    r.guardRan = false ∧ r.req = none ∧ r.bodyPolled = true := by
  rcases Option.map_eq_some'.mp h with ⟨out, _, rfl⟩
  exact ⟨rfl, rfl, rfl⟩

theorem formPoll_first {T : Type} (fdecode : List UInt8 → Except UrlEncodedError T)
    (req : HttpRequest) (bp : BytesPoll) (r : FormPollResult T)
    (h : formPoll fdecode ⟨some req⟩ bp = some r) :
    r.guardRan = true ∧ r.req = none := by
  simp only [formPoll] at h
  cases hg : formGuard req.contentType with
  | none => rw [hg] at h; exact absurd h (by simp)
  | some o =>
    cases o with
    | some rej =>
      rw [hg] at h
      injection h with h
      subst h
      exact ⟨rfl, rfl⟩
    | none =>
      rw [hg] at h
      rcases Option.map_eq_some'.mp h with ⟨r0, h0, rfl⟩
      exact ⟨rfl, (formPollBody_fresh fdecode bp r0 h0).2.1⟩

theorem jsonPoll_first {T : Type} (decode : List UInt8 → Except DeserializeError T)
    (req : HttpRequest) (bp : BytesPoll) :
    (jsonPoll decode ⟨some req⟩ bp).guardRan = true
    ∧ (jsonPoll decode ⟨some req⟩ bp).req = none := by
  cases hg : jsonGuard req.contentType <;> simp [jsonPoll, hg]

theorem jsonGuardRuns_no_req {T : Type} (decode : List UInt8 → Except DeserializeError T)
    (polls : List BytesPoll) : jsonGuardRuns decode ⟨none⟩ polls = 0 := by
  induction polls with
  | nil => rfl
  | cons bp rest ih => simp [jsonGuardRuns, jsonPoll, ih]

theorem formGuardRuns_no_req {T : Type} (fdecode : List UInt8 → Except UrlEncodedError T)
    (polls : List BytesPoll) : formGuardRuns fdecode ⟨none⟩ polls = 0 := by
  induction polls with
  | nil => rfl
  | cons bp rest ih =>
    simp only [formGuardRuns]
    cases hb : formPoll fdecode ⟨none⟩ bp with
    | none => rfl
    | some r =>
      have hr : r.guardRan = false ∧ r.req = none ∧ r.bodyPolled = true :=
        formPollBody_fresh fdecode bp r hb
      show (if r.guardRan = true then 1 else 0) + formGuardRuns fdecode ⟨r.req⟩ rest = 0
      rw [hr.1, hr.2.1]
      simpa using ih

/-- C5: the content-type guard runs exactly on the first poll, before
any body byte is consumed — a guard rejection is returned without
polling the body future — and the request-handle slot is consumed by
that poll, so every later poll skips the guard; while the body reader
reports not-ready the extractor reports not-ready; across any non-empty
sequence of polls of a fresh future the guard runs exactly once (and
never on a future whose slot is already empty).  Both formats. -/
theorem C5_guard_exactly_once {T : Type}
    (jdecode : List UInt8 → Except DeserializeError T)
    (fdecode : List UInt8 → Except UrlEncodedError T)
    (req : HttpRequest) (st : JsonExtractFut) (stf : FormExtractFut)
    (body : BytesPoll) (polls : List BytesPoll) :
    ((jsonPoll jdecode st body).guardRan = st.req.isSome)
    ∧ ((jsonPoll jdecode st body).req = none)
    ∧ (st.req = none →
        jsonPoll jdecode st body =
          { req := none, guardRan := false, bodyPolled := true,
            output := jsonPollBody jdecode body })
    ∧ (∀ rej, jsonGuard req.contentType = some rej →
        jsonPoll jdecode ⟨some req⟩ body =
          { req := none, guardRan := true, bodyPolled := false,
            output := .ready (.error rej) })
    ∧ (jsonGuard req.contentType = none →
        jsonPoll jdecode ⟨some req⟩ .pending =
          { req := none, guardRan := true, bodyPolled := true, output := .pending })
    ∧ (jsonPoll jdecode ⟨none⟩ .pending =
        { req := none, guardRan := false, bodyPolled := true, output := .pending })
    ∧ (polls ≠ [] → jsonGuardRuns jdecode ⟨some req⟩ polls = 1)
    ∧ (jsonGuardRuns jdecode ⟨none⟩ polls = 0)
    ∧ (∀ r, formPoll fdecode stf body = some r → (r.guardRan = stf.req.isSome ∧ r.req = none))
    ∧ (stf.req = none → formPoll fdecode stf body = formPollBody fdecode body)
    ∧ (∀ rej, formGuard req.contentType = some (some rej) →
        formPoll fdecode ⟨some req⟩ body =
          some { req := none, guardRan := true, bodyPolled := false,
                 output := .ready (.error rej) })
    ∧ (formGuard req.contentType = some none →
        formPoll fdecode ⟨some req⟩ .pending =
          some { req := none, guardRan := true, bodyPolled := true, output := .pending })
    ∧ (formPoll fdecode ⟨none⟩ .pending =
        some { req := none, guardRan := false, bodyPolled := true, output := .pending })
    ∧ (polls ≠ [] → formGuardRuns fdecode ⟨some req⟩ polls = 1)
    ∧ (formGuardRuns fdecode ⟨none⟩ polls = 0) := by
  refine ⟨?_, ?_, ?_, ?_, ?_, rfl, ?_, jsonGuardRuns_no_req jdecode polls,
    ?_, ?_, ?_, ?_, rfl, ?_, formGuardRuns_no_req fdecode polls⟩
  · rcases st with ⟨_ | r⟩
    · rfl
    · exact (jsonPoll_first jdecode r body).1
  · rcases st with ⟨_ | r⟩
    · rfl
    · exact (jsonPoll_first jdecode r body).2
  · intro h
    rcases st with ⟨_ | r⟩
    · rfl
    · exact absurd h (by simp)
  · intro rej hg
    simp [jsonPoll, hg]
  · intro hg
    simp [jsonPoll, hg, jsonPollBody]
  · rcases polls with _ | ⟨bp, rest⟩
    · intro h; exact absurd rfl h
    · intro _
      simp only [jsonGuardRuns]
      rw [(jsonPoll_first jdecode req bp).1, (jsonPoll_first jdecode req bp).2,
        jsonGuardRuns_no_req]
      simp
  · intro r hr
    rcases stf with ⟨_ | rq⟩
    · exact ⟨(formPollBody_fresh fdecode body r hr).1, (formPollBody_fresh fdecode body r hr).2.1⟩
    · exact (formPoll_first fdecode rq body r hr)
  · intro h
    rcases stf with ⟨_ | rq⟩
    · rfl
    · exact absurd h (by simp)
  · intro rej hg
    simp [formPoll, hg]
  · intro hg
    simp [formPoll, hg, formPollBody, formBodyOutput]
  · rcases polls with _ | ⟨bp, rest⟩
    · intro h; exact absurd rfl h
    · intro _
      simp only [formGuardRuns]
      cases hp : formPoll fdecode ⟨some req⟩ bp with
      | none => rfl
      | some r =>
        have hr := formPoll_first fdecode req bp r hp
        show (if r.guardRan = true then 1 else 0) + formGuardRuns fdecode ⟨r.req⟩ rest = 1
        rw [hr.1, hr.2]
        simp [formGuardRuns_no_req]

theorem C5_guard_exactly_once_witness :
    jsonGuardRuns (T := Nat) (fun _ => .error ⟨""⟩)
      ⟨some ⟨some APPLICATION_JSON_BYTES⟩⟩ [.pending, .pending] = 1
    ∧ formGuardRuns (T := Nat) (fun _ => .error ⟨""⟩)
      ⟨some ⟨some FORM_URLENCODED_BYTES⟩⟩ [.pending, .pending] = 1
    ∧ jsonPoll (T := Nat) (fun _ => .error ⟨""⟩) ⟨none⟩ .pending =
        { req := none, guardRan := false, bodyPolled := true, output := .pending } := by
  obtain ⟨_, _, _, _, _, _, h7, _, _, _, _, _, _, h14, _⟩ :=
    C5_guard_exactly_once (T := Nat) (fun _ => .error ⟨""⟩) (fun _ => .error ⟨""⟩)
      ⟨some APPLICATION_JSON_BYTES⟩ ⟨none⟩ ⟨none⟩ .pending [.pending, .pending]
  obtain ⟨_, _, _, _, _, _, _, _, _, _, _, _, _, h14f, _⟩ :=
    C5_guard_exactly_once (T := Nat) (fun _ => .error ⟨""⟩) (fun _ => .error ⟨""⟩)
      ⟨some FORM_URLENCODED_BYTES⟩ ⟨none⟩ ⟨none⟩ .pending [.pending, .pending]
  exact ⟨h7 (by simp), h14f (by simp), by rfl⟩

/-- C8: the code, evaluated at the claim's scenario — Form guard
accepted, body ready with bytes that are not valid UTF-8 — panics
(`str::from_utf8(..).unwrap()`), modelled as `none`, instead of
producing the `BodyReadFailure` rejection the spec prescribes. -/
theorem C8_invalid_utf8_body_panics {T : Type}
    (fdecode : List UInt8 → Except UrlEncodedError T)
    (ct data : List UInt8)
    (hct : formGuard (some ct) = some none) (hdata : validUtf8 data = false) :
    formPoll fdecode ⟨some ⟨some ct⟩⟩ (.ready (.ok data)) = none := by
  simp [formPoll, hct, formPollBody, formBodyOutput, hdata]

theorem C8_invalid_utf8_body_panics_witness :
    formPoll (T := Nat) (fun _ => .error ⟨""⟩)
        ⟨some ⟨some FORM_URLENCODED_BYTES⟩⟩ (.ready (.ok [(255 : UInt8)])) = none :=
  C8_invalid_utf8_body_panics _ _ _ (by decide) (by decide)

/-- C10: for every constructible Content-Type header value containing a
byte that is not visible ASCII (so `HeaderValue::to_str` errors), the
Form guard panics via `unwrap` — modelled as `none` — rather than
returning any Rejection verdict, and so does the whole first poll,
whatever the body reports. -/
theorem C10_form_guard_panic_not_total {T : Type}
    (fdecode : List UInt8 → Except UrlEncodedError T)
    (v : List UInt8) (body : BytesPoll)
    (_hv : validHeaderBytes v = true) (h : v.all isVisibleAscii = false) :
    formGuard (some v) = none
    ∧ formPoll fdecode ⟨some ⟨some v⟩⟩ body = none := by
  have hg : formGuard (some v) = none := by simp [formGuard, headerToStr, h]
  exact ⟨hg, by simp [formPoll, hg]⟩

theorem C10_form_guard_panic_not_total_witness :
    formGuard (some [(255 : UInt8)]) = none
    ∧ formPoll (T := Nat) (fun _ => .error ⟨""⟩)
        ⟨some ⟨some [(255 : UInt8)]⟩⟩ .pending = none :=
  C10_form_guard_panic_not_total _ _ .pending (by decide) (by decide)

/-- C6: with an accepted Content-Type and a fully-read body whose bytes
fail to decode, both extractors terminate with the `Deserialize`
rejection carrying the codec's structured error value, and its rendered
status is 422 (form side additionally requires the body to be valid
UTF-8, without which the code panics — see C8). -/
theorem C6_decode_failure {T : Type}
    (jdecode : List UInt8 → Except DeserializeError T)
    (fdecode : List UInt8 → Except UrlEncodedError T)
    (ct ctf data : List UInt8) (e : DeserializeError) (ef : UrlEncodedError) :
    (jsonGuard (some ct) = none → jdecode data = .error e →
      jsonPoll jdecode ⟨some ⟨some ct⟩⟩ (.ready (.ok data)) =
        { req := none, guardRan := true, bodyPolled := true,
          output := .ready (.error (.Deserialize e)) }
      ∧ (JsonRejection.Deserialize e).status_code = 422)
    ∧ (formGuard (some ctf) = some none → validUtf8 data = true → fdecode data = .error ef →
      formPoll fdecode ⟨some ⟨some ctf⟩⟩ (.ready (.ok data)) =
        some { req := none, guardRan := true, bodyPolled := true,
               output := .ready (.error (.Deserialize ef)) }
      ∧ (FormRejection.Deserialize ef).status_code = 422) := by
  constructor
  · intro hg hd
    exact ⟨by simp [jsonPoll, hg, jsonPollBody, hd], rfl⟩
  · intro hg hu hd
    exact ⟨by simp [formPoll, hg, formPollBody, formBodyOutput, hu, hd], rfl⟩

theorem C6_decode_failure_witness :
    jsonPoll (T := Nat) (fun _ => .error ⟨"bad"⟩) ⟨some ⟨some APPLICATION_JSON_BYTES⟩⟩
        (.ready (.ok (strBytes "x"))) =
      { req := none, guardRan := true, bodyPolled := true,
        output := .ready (.error (.Deserialize ⟨"bad"⟩)) }
    ∧ (JsonRejection.Deserialize ⟨"bad"⟩).status_code = 422
    ∧ formPoll (T := Nat) (fun _ => .error ⟨"bad"⟩) ⟨some ⟨some FORM_URLENCODED_BYTES⟩⟩
        (.ready (.ok (strBytes "x"))) =
      some { req := none, guardRan := true, bodyPolled := true,
             output := .ready (.error (.Deserialize ⟨"bad"⟩)) }
    ∧ (FormRejection.Deserialize ⟨"bad"⟩).status_code = 422 := by
  obtain ⟨hj, hf⟩ := C6_decode_failure (T := Nat) (fun _ => .error ⟨"bad"⟩)
    (fun _ => .error ⟨"bad"⟩) APPLICATION_JSON_BYTES FORM_URLENCODED_BYTES
    (strBytes "x") ⟨"bad"⟩ ⟨"bad"⟩
  obtain ⟨hj1, hj2⟩ := hj (by decide) rfl
  obtain ⟨hf1, hf2⟩ := hf (by decide) (by decide) rfl
  exact ⟨hj1, hj2, hf1, hf2⟩

/-- C7: responding with `Json(v)` yields, when encode succeeds and
framing works, a 200 response whose body is exactly the encoded text
with Content-Type `application/json`; a framing failure is rendered as
500; an encode failure is rendered as 500 with the body derived from
the encode error's display text.  The whole path is a pure function —
it never suspends. -/
theorem C7_responder {T : Type} (encode : T → Except SerializeError (List UInt8))
    (j : Json T) :
    (∀ body, encode j.val = .ok body →
      Json.respond_to encode none j =
        { status := 200, contentType := some APPLICATION_JSON_BYTES, body := body })
    ∧ (∀ body he, encode j.val = .ok body →
      Json.respond_to encode (some he) j = fromError 500 he.msg)
    ∧ (∀ e builderErr, encode j.val = .error e →
      Json.respond_to encode builderErr j = fromError 500 e.msg
      ∧ (Json.respond_to encode builderErr j).status = 500
      ∧ (Json.respond_to encode builderErr j).body = strBytes e.msg) := by
  refine ⟨?_, ?_, ?_⟩
  · intro body h
    simp [Json.respond_to, h]
  · intro body he h
    simp [Json.respond_to, h, fromError, HttpError.status_code]
  · intro e builderErr h
    refine ⟨?_, ?_, ?_⟩ <;>
      simp [Json.respond_to, h, fromError, SerializeErrorToActixError.status_code,
        SerializeErrorToActixError.display]

theorem C7_responder_witness :
    Json.respond_to (T := Nat) (fun _ => .ok (strBytes "1")) none ⟨1⟩ =
      { status := 200, contentType := some APPLICATION_JSON_BYTES, body := strBytes "1" }
    ∧ Json.respond_to (T := Nat) (fun _ => .ok (strBytes "1")) (some ⟨"framing"⟩) ⟨1⟩ =
      fromError 500 "framing"
    ∧ Json.respond_to (T := Nat) (fun _ => .error ⟨"oops"⟩) none ⟨1⟩ = fromError 500 "oops" := by
  refine ⟨?_, ?_, ?_⟩
  · exact (C7_responder (fun _ => .ok (strBytes "1")) ⟨1⟩).1 _ rfl
  · exact (C7_responder (fun _ => .ok (strBytes "1")) ⟨1⟩).2.1 _ ⟨"framing"⟩ rfl
  · exact ((C7_responder (fun _ => .error ⟨"oops"⟩) ⟨1⟩).2.2 ⟨"oops"⟩ none rfl).1

theorem ofDigits10_digitsFuel : ∀ (fuel n : Nat), n ≤ fuel →
    ofDigits10 (digitsFuel fuel n) = n
  | 0, 0, _ => rfl
  | 0, _ + 1, h => absurd h (by omega)
  | _ + 1, 0, _ => rfl
  | fuel + 1, n + 1, h => by
    have hlt : (n + 1) / 10 ≤ fuel := by
      have := Nat.div_lt_self (Nat.succ_pos n) (by norm_num : (1 : Nat) < 10)
      omega
    simp only [digitsFuel, ofDigits10]
    rw [ofDigits10_digitsFuel fuel ((n + 1) / 10) hlt]
    omega

theorem digitsFuel_lt : ∀ (fuel n d : Nat), d ∈ digitsFuel fuel n → d < 10
  | 0, _, d, h => absurd h (by simp [digitsFuel])
  | _ + 1, 0, d, h => absurd h (by simp [digitsFuel])
  | fuel + 1, n + 1, d, h => by
    simp only [digitsFuel, List.mem_cons] at h
    rcases h with rfl | h
    · exact Nat.mod_lt _ (by norm_num)
    · exact digitsFuel_lt fuel _ d h

theorem digitByte_spec (d : Nat) (h : d < 10) :
    isDigitByte (digitByte d) = true ∧ byteDigit (digitByte d) = d := by
  interval_cases d <;> exact ⟨by decide, by decide⟩

theorem natBytes_digits (n : Nat) : ∀ b ∈ natBytes n, isDigitByte b = true := by
  intro b hb
  by_cases h : n = 0
  · subst h
    simp [natBytes] at hb
    subst hb
    decide
  · simp only [natBytes, if_neg h, List.mem_reverse, List.mem_map] at hb
    rcases hb with ⟨d, hd, rfl⟩
    exact (digitByte_spec d (digitsFuel_lt n n d hd)).1

theorem natBytes_ne_nil (n : Nat) : natBytes n ≠ [] := by
  by_cases h : n = 0
  · subst h
    simp [natBytes]
  · obtain ⟨m, rfl⟩ := Nat.exists_eq_succ_of_ne_zero h
    simp [natBytes, digitsFuel]

theorem natBytes_readback (n : Nat) :
    ofDigits10 (((natBytes n).map byteDigit).reverse) = n := by
  by_cases h : n = 0
  · subst h
    decide
  · obtain ⟨m, rfl⟩ := Nat.exists_eq_succ_of_ne_zero h
    simp only [natBytes, if_neg h, List.map_reverse, List.reverse_reverse, List.map_map]
    have hmap : (digitsFuel (m + 1) (m + 1)).map (byteDigit ∘ digitByte) =
        (digitsFuel (m + 1) (m + 1)).map id := by
      apply List.map_congr_left
      intro d hd
      exact (digitByte_spec d (digitsFuel_lt _ _ d hd)).2
    rw [hmap, List.map_id]
    exact ofDigits10_digitsFuel _ _ le_rfl

theorem parseNatBytes_encode (n : Nat) (y : UInt8) (rest : List UInt8)
    (hy : isDigitByte y = false) :
    parseNatBytes (natBytes n ++ y :: rest) = some (n, y :: rest) := by
  have htw : (natBytes n ++ y :: rest).takeWhile isDigitByte = natBytes n := by
    rw [List.takeWhile_append_of_pos (natBytes_digits n),
      List.takeWhile_cons_of_neg (by simp [hy]), List.append_nil]
  simp only [parseNatBytes, htw]
  rw [if_neg (by simpa [List.isEmpty_iff] using natBytes_ne_nil n)]
  rw [natBytes_readback, List.drop_left]

theorem expectBytes_append (pat rest : List UInt8) :
    expectBytes pat (pat ++ rest) = some rest := by
  unfold expectBytes
  rw [if_pos (by simp), List.drop_left]

/-- C9: round-trip law for the structured format at the representative
supported shape — decoding the text produced by encoding a value yields
the value back, both for the codec itself and when the encoded text is
fed through the JSON extractor under the accepted content type. -/
theorem C9_roundtrip (r : RangeQ) :
    decodeRange (encodeRange r) = .ok r
    ∧ (jsonPoll decodeRange ⟨some ⟨some APPLICATION_JSON_BYTES⟩⟩
        (.ready (.ok (encodeRange r)))).output = .ready (.ok ⟨r⟩) := by
  have hmid : JSON_OBJ_MID = (44 : UInt8) :: strBytes "\"max\":" := by decide
  have htail : JSON_OBJ_TAIL = [(125 : UInt8)] := by decide
  obtain ⟨m, x⟩ := r
  have h2 : parseNatBytes (natBytes m ++ (JSON_OBJ_MID ++ (natBytes x ++ JSON_OBJ_TAIL))) =
      some (m, JSON_OBJ_MID ++ (natBytes x ++ JSON_OBJ_TAIL)) := by
    rw [hmid, List.cons_append]
    exact parseNatBytes_encode m 44 _ (by decide)
  have h4 : parseNatBytes (natBytes x ++ JSON_OBJ_TAIL) = some (x, JSON_OBJ_TAIL) := by
    rw [htail]
    exact parseNatBytes_encode x 125 [] (by decide)
  have h5 : expectBytes JSON_OBJ_TAIL JSON_OBJ_TAIL = some [] := by
    have := expectBytes_append JSON_OBJ_TAIL []
    rwa [List.append_nil] at this
  have hdec : decodeRange (encodeRange ⟨m, x⟩) = .ok ⟨m, x⟩ := by
    simp only [decodeRange, encodeRange, List.append_assoc, expectBytes_append, h2, h4, h5]
    rfl
  exact ⟨hdec, by simp [jsonPoll, jsonGuard, jsonPollBody, hdec]⟩

theorem C9_roundtrip_witness :
    decodeRange (encodeRange ⟨1, 5⟩) = .ok ⟨1, 5⟩
    ∧ (jsonPoll decodeRange ⟨some ⟨some APPLICATION_JSON_BYTES⟩⟩
        (.ready (.ok (encodeRange ⟨1, 5⟩)))).output = .ready (.ok ⟨⟨1, 5⟩⟩) :=
  C9_roundtrip ⟨1, 5⟩

end FacetActix
